import Mathlib

/-!
Shallow embedding of the music-theory engine of the reading_practice
repository: pitch calculation, range validation, the voicing catalog,
selection expansion, chord generation and the diatonic step transposition.
Machine numbers are embedded as Int; the JavaScript `%` operator is
Int.tmod (truncated remainder) and Math.floor division is Int.fdiv.
Fallible code (throwing) is embedded with Option.
-/

namespace ReadingPractice

/-- The seven diatonic note letters, source list NOTE_LETTERS. -/
inductive NoteLetter where
  | C | D | E | F | G | A | B
deriving DecidableEq, Repr

/-- Source constant NOTE_LETTERS = [C, D, E, F, G, A, B]. -/
def NOTE_LETTERS : List NoteLetter :=
  [NoteLetter.C, NoteLetter.D, NoteLetter.E, NoteLetter.F,
   NoteLetter.G, NoteLetter.A, NoteLetter.B]

/-- NOTE_LETTERS.indexOf, tabulated (every letter occurs, at these positions). -/
def letterIndex : NoteLetter → Int
  | NoteLetter.C => 0
  | NoteLetter.D => 1
  | NoteLetter.E => 2
  | NoteLetter.F => 3
  | NoteLetter.G => 4
  | NoteLetter.A => 5
  | NoteLetter.B => 6

/-- Array access NOTE_LETTERS[i] for an index already wrapped into 0..6. -/
def noteLetterAt (i : Nat) : NoteLetter :=
  NOTE_LETTERS.getD i NoteLetter.C

/-- Source constant NATURAL_SEMITONES. -/
def NATURAL_SEMITONES : NoteLetter → Int
  | NoteLetter.C => 0
  | NoteLetter.D => 2
  | NoteLetter.E => 4
  | NoteLetter.F => 5
  | NoteLetter.G => 7
  | NoteLetter.A => 9
  | NoteLetter.B => 11

/-- The 13 key signatures of the source KeySignature union type
(Fs stands for the F sharp key). -/
inductive KeySignature where
  | C | G | D | A | E | B | Fs | F | Bb | Eb | Ab | Db | Gb
deriving DecidableEq, Repr

/-- keySignature[0]: the first character of the key name, as a note letter. -/
def tonicLetter : KeySignature → NoteLetter
  | KeySignature.C => NoteLetter.C
  | KeySignature.G => NoteLetter.G
  | KeySignature.D => NoteLetter.D
  | KeySignature.A => NoteLetter.A
  | KeySignature.E => NoteLetter.E
  | KeySignature.B => NoteLetter.B
  | KeySignature.Fs => NoteLetter.F
  | KeySignature.F => NoteLetter.F
  | KeySignature.Bb => NoteLetter.B
  | KeySignature.Eb => NoteLetter.E
  | KeySignature.Ab => NoteLetter.A
  | KeySignature.Db => NoteLetter.D
  | KeySignature.Gb => NoteLetter.G

/-- Source table KEY_ACCIDENTALS, with the lookup default
KEY_ACCIDENTALS[key][letter] || 0 folded in: letters absent from the
record of a key map to 0. -/
def KEY_ACCIDENTALS (k : KeySignature) (l : NoteLetter) : Int :=
  match k with
  | KeySignature.C => 0
  | KeySignature.G => if l = NoteLetter.F then 1 else 0
  | KeySignature.D =>
      if l = NoteLetter.F ∨ l = NoteLetter.C then 1 else 0
  | KeySignature.A =>
      if l = NoteLetter.F ∨ l = NoteLetter.C ∨ l = NoteLetter.G then 1 else 0
  | KeySignature.E =>
      if l = NoteLetter.F ∨ l = NoteLetter.C ∨ l = NoteLetter.G ∨
         l = NoteLetter.D then 1 else 0
  | KeySignature.B =>
      if l = NoteLetter.F ∨ l = NoteLetter.C ∨ l = NoteLetter.G ∨
         l = NoteLetter.D ∨ l = NoteLetter.A then 1 else 0
  | KeySignature.Fs =>
      if l = NoteLetter.F ∨ l = NoteLetter.C ∨ l = NoteLetter.G ∨
         l = NoteLetter.D ∨ l = NoteLetter.A ∨ l = NoteLetter.E then 1 else 0
  | KeySignature.F => if l = NoteLetter.B then -1 else 0
  | KeySignature.Bb =>
      if l = NoteLetter.B ∨ l = NoteLetter.E then -1 else 0
  | KeySignature.Eb =>
      if l = NoteLetter.B ∨ l = NoteLetter.E ∨ l = NoteLetter.A then -1 else 0
  | KeySignature.Ab =>
      if l = NoteLetter.B ∨ l = NoteLetter.E ∨ l = NoteLetter.A ∨
         l = NoteLetter.D then -1 else 0
  | KeySignature.Db =>
      if l = NoteLetter.B ∨ l = NoteLetter.E ∨ l = NoteLetter.A ∨
         l = NoteLetter.D ∨ l = NoteLetter.G then -1 else 0
  | KeySignature.Gb =>
      if l = NoteLetter.B ∨ l = NoteLetter.E ∨ l = NoteLetter.A ∨
         l = NoteLetter.D ∨ l = NoteLetter.G ∨ l = NoteLetter.C then -1 else 0

/-- Source function getNoteLetter: the tonic letter of the key advanced by
(scaleDegree - 1) steps, wrapped into 0..6 with the JavaScript idiom
((x % 7) + 7) % 7 (JavaScript % is truncated remainder, Int.tmod). -/
def getNoteLetter (scaleDegree : Int) (keySignature : KeySignature) : NoteLetter :=
  let tonicIndex := letterIndex (tonicLetter keySignature)
  let noteIndex := tonicIndex + scaleDegree - 1
  let wrappedIndex := (noteIndex.tmod 7 + 7).tmod 7
  noteLetterAt wrappedIndex.toNat

/-- Source function noteToMidiPitch. -/
def noteToMidiPitch (noteLetter : NoteLetter) (accidental : Int) (octave : Int) : Int :=
  (octave + 1) * 12 + NATURAL_SEMITONES noteLetter + accidental

/-- A VoicingDegree is a bare number, or a number written as a string with
trailing prime marks (the source parses the string; here the parsed degree
and the count of prime marks are carried directly). -/
inductive VoicingDegree where
  | num (n : Int)
  | marked (n : Int) (primes : Nat)
deriving DecidableEq, Repr

/-- Source function parseVoicingDegree: a bare number has octaveShift 0, a
marked degree keeps its prime count as the octaveShift. -/
def parseVoicingDegree : VoicingDegree → Int × Nat
  | VoicingDegree.num n => (n, 0)
  | VoicingDegree.marked n primes => (n, primes)

/-- A Voicing is a list of VoicingDegree (order [bass, tenor, alto, soprano]). -/
abbrev Voicing := List VoicingDegree

/-- Source function calculatePitchFromDegree.  Math.floor(x / 12) and
Math.floor(x / 7) on possibly negative numbers are Int.fdiv. -/
def calculatePitchFromDegree (voicingDegree : VoicingDegree) (referenceRoot : Int)
    (keySignature : KeySignature) (rootScaleDegree : Int) : Int :=
  let parsed := parseVoicingDegree voicingDegree
  let degree := parsed.1
  let octaveShift := parsed.2
  let absoluteScaleDegree := rootScaleDegree + (degree - 1)
  let noteLetter := getNoteLetter absoluteScaleDegree keySignature
  let accidental := KEY_ACCIDENTALS keySignature noteLetter
  let referenceOctave := referenceRoot.fdiv 12 - 1
  let rootNoteLetter := getNoteLetter rootScaleDegree keySignature
  let rootNoteIndex := letterIndex rootNoteLetter
  let noteIndex := letterIndex noteLetter
  let diatonicSteps := degree - 1
  let octavesCrossed := diatonicSteps.fdiv 7
  let octaveBase := referenceOctave + octavesCrossed
  let octaveAdjusted :=
    if octavesCrossed = 0 ∧ noteIndex < rootNoteIndex then octaveBase + 1 else octaveBase
  let octave := octaveAdjusted + (octaveShift : Int)
  noteToMidiPitch noteLetter accidental octave

/-- The first while loop of findReferenceRoot: lower the octave while the
pitch (octave + 1) * 12 + c is at least 60 (c is the semitone offset of the
letter plus the accidental, which the loop body keeps fixed). -/
def normalizeDown (octave : Int) (c : Int) : Int :=
  if 60 ≤ (octave + 1) * 12 + c then normalizeDown (octave - 1) c else octave
termination_by ((octave + 1) * 12 + c).toNat
decreasing_by simp_wf; omega

/-- The second while loop of findReferenceRoot: raise the octave while the
pitch (octave + 1) * 12 + c is below 48. -/
def normalizeUp (octave : Int) (c : Int) : Int :=
  if (octave + 1) * 12 + c < 48 then normalizeUp (octave + 1) c else octave
termination_by (48 - ((octave + 1) * 12 + c)).toNat
decreasing_by simp_wf; omega

/-- Source function findReferenceRoot: start at octave 3 and normalize the
pitch into the C3 to B3 range with the two while loops (the voicing
parameter of the source is unused there). -/
def findReferenceRoot (rootScaleDegree : Int) (keySignature : KeySignature) : Int :=
  let noteLetter := getNoteLetter rootScaleDegree keySignature
  let accidental := KEY_ACCIDENTALS keySignature noteLetter
  let c := NATURAL_SEMITONES noteLetter + accidental
  let octave := normalizeUp (normalizeDown 3 c) c
  (octave + 1) * 12 + NATURAL_SEMITONES noteLetter + accidental

/-- The four resolved voice pitches, fields in the external [soprano, alto,
tenor, bass] order of the source return value. -/
structure PitchQuad where
  soprano : Int
  alto : Int
  tenor : Int
  bass : Int
deriving DecidableEq, Repr

/-- Source function calculatePitches: a voicing whose length is not exactly
4 throws (none here); otherwise the four degrees, read in [bass, tenor,
alto, soprano] order, are resolved against the explicit reference root or a
freshly derived one, and returned in [soprano, alto, tenor, bass] order. -/
def calculatePitches (rootScaleDegree : Int) (keySignature : KeySignature)
    (voicing : Voicing) (explicitReferenceRoot : Option Int) :
    Option PitchQuad :=
  match voicing with
  | [b, t, a, s] =>
    let referenceRoot :=
      explicitReferenceRoot.getD (findReferenceRoot rootScaleDegree keySignature)
    some
      { soprano := calculatePitchFromDegree s referenceRoot keySignature rootScaleDegree
        alto := calculatePitchFromDegree a referenceRoot keySignature rootScaleDegree
        tenor := calculatePitchFromDegree t referenceRoot keySignature rootScaleDegree
        bass := calculatePitchFromDegree b referenceRoot keySignature rootScaleDegree }
  | _ => none

/-- The four voices. -/
inductive Voice where
  | soprano | alto | tenor | bass
deriving DecidableEq, Repr

/-- An inclusive MIDI range. -/
structure VoiceRange where
  min : Int
  max : Int
deriving DecidableEq, Repr

/-- Source table VOICE_RANGES. -/
def VOICE_RANGES : Voice → VoiceRange
  | Voice.soprano => { min := 60, max := 81 }
  | Voice.alto => { min := 55, max := 76 }
  | Voice.tenor => { min := 48, max := 67 }
  | Voice.bass => { min := 40, max := 62 }

/-- Source function isPitchInRange: inclusive bounds check. -/
def isPitchInRange (pitch : Int) (voice : Voice) : Bool :=
  let range := VOICE_RANGES voice
  decide (range.min ≤ pitch) && decide (pitch ≤ range.max)

/-- Source function validatePitches over [soprano, alto, tenor, bass]. -/
def validatePitches (pitches : PitchQuad) : Bool :=
  isPitchInRange pitches.soprano Voice.soprano &&
  isPitchInRange pitches.alto Voice.alto &&
  isPitchInRange pitches.tenor Voice.tenor &&
  isPitchInRange pitches.bass Voice.bass

/-- The 12 voicing category keys of the source VoicingCategory union. -/
inductive VoicingCategory where
  | SB_doubled_close | SB_doubled_spread
  | AB_doubled_close | AB_doubled_spread
  | TB_doubled_close | TB_doubled_spread
  | ST_doubled_bottom_close | ST_doubled_bottom_spread
  | TA_doubled_close | TA_doubled_spread
  | AS_doubled_close | AS_doubled_spread
deriving DecidableEq, Repr

/-- Source table VOICINGS: three templates per category, order
[bass, tenor, alto, soprano]. -/
def VOICINGS : VoicingCategory → List Voicing
  | VoicingCategory.SB_doubled_close =>
    [[VoicingDegree.num 1, VoicingDegree.num 3, VoicingDegree.num 5, VoicingDegree.marked 1 1],
     [VoicingDegree.num 5, VoicingDegree.marked 1 1, VoicingDegree.marked 3 1, VoicingDegree.marked 5 1],
     [VoicingDegree.num 3, VoicingDegree.num 5, VoicingDegree.marked 1 1, VoicingDegree.marked 3 1]]
  | VoicingCategory.SB_doubled_spread =>
    [[VoicingDegree.num 1, VoicingDegree.num 5, VoicingDegree.marked 3 1, VoicingDegree.marked 1 2],
     [VoicingDegree.num 5, VoicingDegree.marked 3 1, VoicingDegree.marked 1 2, VoicingDegree.marked 5 2],
     [VoicingDegree.num 3, VoicingDegree.marked 1 1, VoicingDegree.marked 5 1, VoicingDegree.marked 3 2]]
  | VoicingCategory.AB_doubled_close =>
    [[VoicingDegree.num 1, VoicingDegree.num 5, VoicingDegree.marked 1 1, VoicingDegree.marked 3 1],
     [VoicingDegree.num 5, VoicingDegree.marked 3 1, VoicingDegree.marked 5 1, VoicingDegree.marked 1 2],
     [VoicingDegree.num 3, VoicingDegree.marked 1 1, VoicingDegree.marked 3 1, VoicingDegree.marked 5 1]]
  | VoicingCategory.AB_doubled_spread =>
    [[VoicingDegree.num 1, VoicingDegree.num 3, VoicingDegree.marked 1 1, VoicingDegree.marked 5 1],
     [VoicingDegree.num 5, VoicingDegree.marked 1 1, VoicingDegree.marked 5 1, VoicingDegree.marked 3 2],
     [VoicingDegree.num 3, VoicingDegree.num 5, VoicingDegree.marked 3 1, VoicingDegree.marked 1 2]]
  | VoicingCategory.TB_doubled_close =>
    [[VoicingDegree.num 1, VoicingDegree.marked 1 1, VoicingDegree.marked 3 1, VoicingDegree.marked 5 1],
     [VoicingDegree.num 5, VoicingDegree.marked 5 1, VoicingDegree.marked 1 2, VoicingDegree.marked 3 2],
     [VoicingDegree.num 3, VoicingDegree.marked 3 1, VoicingDegree.marked 5 1, VoicingDegree.marked 1 2]]
  | VoicingCategory.TB_doubled_spread =>
    [[VoicingDegree.num 1, VoicingDegree.marked 1 1, VoicingDegree.marked 5 1, VoicingDegree.marked 3 2],
     [VoicingDegree.num 5, VoicingDegree.marked 5 1, VoicingDegree.marked 3 2, VoicingDegree.marked 1 3],
     [VoicingDegree.num 3, VoicingDegree.marked 3 1, VoicingDegree.marked 1 2, VoicingDegree.marked 5 2]]
  | VoicingCategory.ST_doubled_bottom_close =>
    [[VoicingDegree.num 1, VoicingDegree.num 3, VoicingDegree.num 5, VoicingDegree.marked 3 1],
     [VoicingDegree.num 5, VoicingDegree.marked 1 1, VoicingDegree.marked 3 1, VoicingDegree.marked 1 2],
     [VoicingDegree.num 3, VoicingDegree.num 5, VoicingDegree.marked 1 1, VoicingDegree.marked 5 1]]
  | VoicingCategory.ST_doubled_bottom_spread =>
    [[VoicingDegree.num 1, VoicingDegree.num 5, VoicingDegree.marked 3 1, VoicingDegree.marked 5 1],
     [VoicingDegree.num 5, VoicingDegree.marked 3 1, VoicingDegree.marked 1 2, VoicingDegree.marked 3 2],
     [VoicingDegree.num 3, VoicingDegree.marked 1 1, VoicingDegree.marked 5 1, VoicingDegree.marked 1 2]]
  | VoicingCategory.TA_doubled_close =>
    [[VoicingDegree.num 1, VoicingDegree.num 3, VoicingDegree.marked 3 1, VoicingDegree.marked 5 1],
     [VoicingDegree.num 5, VoicingDegree.marked 1 1, VoicingDegree.marked 1 2, VoicingDegree.marked 3 2],
     [VoicingDegree.num 3, VoicingDegree.num 5, VoicingDegree.marked 5 1, VoicingDegree.marked 1 2]]
  | VoicingCategory.TA_doubled_spread =>
    [[VoicingDegree.num 1, VoicingDegree.num 5, VoicingDegree.marked 5 1, VoicingDegree.marked 3 2],
     [VoicingDegree.num 5, VoicingDegree.marked 3 1, VoicingDegree.marked 3 2, VoicingDegree.marked 1 3],
     [VoicingDegree.num 3, VoicingDegree.marked 1 1, VoicingDegree.marked 1 2, VoicingDegree.marked 5 2]]
  | VoicingCategory.AS_doubled_close =>
    [[VoicingDegree.num 1, VoicingDegree.num 3, VoicingDegree.num 5, VoicingDegree.marked 5 1],
     [VoicingDegree.num 5, VoicingDegree.marked 1 1, VoicingDegree.marked 3 1, VoicingDegree.marked 3 2],
     [VoicingDegree.num 3, VoicingDegree.num 5, VoicingDegree.marked 1 1, VoicingDegree.marked 1 2]]
  | VoicingCategory.AS_doubled_spread =>
    [[VoicingDegree.num 1, VoicingDegree.num 5, VoicingDegree.marked 3 1, VoicingDegree.marked 3 2],
     [VoicingDegree.num 5, VoicingDegree.marked 3 1, VoicingDegree.marked 1 2, VoicingDegree.marked 1 3],
     [VoicingDegree.num 3, VoicingDegree.marked 1 1, VoicingDegree.marked 5 1, VoicingDegree.marked 5 2]]

/-- The six doubling symbols of the selector. -/
inductive DoublingType where
  | SB | AB | TB | ST | TA | AS
deriving DecidableEq, Repr

/-- Close or spread spacing. -/
inductive SpacingType where
  | close | spread
deriving DecidableEq, Repr

/-- The three inversions. -/
inductive InversionType where
  | root | fifth | third
deriving DecidableEq, Repr

/-- A voicing selection tuple {doubling, spacing, inversion}. -/
structure VoicingSelection where
  doubling : DoublingType
  spacing : SpacingType
  inversion : InversionType
deriving DecidableEq, Repr

/-- Source function selectionToCategory: the doubling ST uses the
-doubled-bottom infix, every other doubling the plain -doubled infix; the
spacing appends -close or -spread; root, fifth, third map to 0, 1, 2. -/
def selectionToCategory (selection : VoicingSelection) : VoicingCategory × Nat :=
  let category :=
    match selection.doubling, selection.spacing with
    | DoublingType.SB, SpacingType.close => VoicingCategory.SB_doubled_close
    | DoublingType.SB, SpacingType.spread => VoicingCategory.SB_doubled_spread
    | DoublingType.AB, SpacingType.close => VoicingCategory.AB_doubled_close
    | DoublingType.AB, SpacingType.spread => VoicingCategory.AB_doubled_spread
    | DoublingType.TB, SpacingType.close => VoicingCategory.TB_doubled_close
    | DoublingType.TB, SpacingType.spread => VoicingCategory.TB_doubled_spread
    | DoublingType.ST, SpacingType.close => VoicingCategory.ST_doubled_bottom_close
    | DoublingType.ST, SpacingType.spread => VoicingCategory.ST_doubled_bottom_spread
    | DoublingType.TA, SpacingType.close => VoicingCategory.TA_doubled_close
    | DoublingType.TA, SpacingType.spread => VoicingCategory.TA_doubled_spread
    | DoublingType.AS, SpacingType.close => VoicingCategory.AS_doubled_close
    | DoublingType.AS, SpacingType.spread => VoicingCategory.AS_doubled_spread
  let inversionIndex : Nat :=
    match selection.inversion with
    | InversionType.root => 0
    | InversionType.fifth => 1
    | InversionType.third => 2
  (category, inversionIndex)

/-- Source function getVoicingForSelection: null when the index is out of
bounds of the category entry, the voicing at that index otherwise. -/
def getVoicingForSelection (selection : VoicingSelection) : Option Voicing :=
  let ci := selectionToCategory selection
  (VOICINGS ci.1)[ci.2]?

/-- An entry of the list built by getVoicingsForSelections. -/
structure SelectedVoicing where
  category : VoicingCategory
  index : Nat
  voicing : Voicing
deriving DecidableEq, Repr

/-- Source function getVoicingsForSelections: selections whose lookup is
null are skipped. -/
def getVoicingsForSelections (selections : List VoicingSelection) :
    List SelectedVoicing :=
  selections.filterMap fun selection =>
    match getVoicingForSelection selection with
    | some voicing =>
      let ci := selectionToCategory selection
      some { category := ci.1, index := ci.2, voicing := voicing }
    | none => none

/-- Major or minor mode. -/
inductive Mode where
  | major | minor
deriving DecidableEq, Repr

/-- The Chord record of the source. -/
structure Chord where
  root : Int
  keySignature : KeySignature
  mode : Mode
  voicing : Voicing
  pitches : PitchQuad
deriving DecidableEq, Repr

/-- A { root, referenceRoot } pair collected by getValidRoots. -/
structure RootCombo where
  root : Int
  referenceRoot : Int
deriving DecidableEq, Repr

/-- Source function getValidRoots: for every root 1..7 and octave 1..5,
build the reference root pitch for that octave, resolve the four pitches
with it and record the pair when they validate (a throw inside
calculatePitches skips the combination). -/
def getValidRoots (voicing : Voicing) (keySignature : KeySignature) :
    List RootCombo :=
  ((List.range 7).map (fun i => (i : Int) + 1)).flatMap fun root =>
    ((List.range 5).map (fun i => (i : Int) + 1)).filterMap fun octave =>
      let noteLetter := getNoteLetter root keySignature
      let accidental := KEY_ACCIDENTALS keySignature noteLetter
      let referenceRoot := noteToMidiPitch noteLetter accidental octave
      match calculatePitches root keySignature voicing (some referenceRoot) with
      | some pitches =>
        if validatePitches pitches then
          some { root := root, referenceRoot := referenceRoot }
        else none
      | none => none

/-- An entry of the candidate pool of generateRandomChord. -/
structure ValidCombination where
  category : VoicingCategory
  voicingIndex : Nat
  voicing : Voicing
  key : KeySignature
  root : Int
  referenceRoot : Int
deriving DecidableEq, Repr

/-- The candidate pool of generateRandomChord: every valid root combination
of every enabled (voicing, key) pair. -/
def collectValidCombinations (enabledSelections : List VoicingSelection)
    (enabledKeys : List KeySignature) : List ValidCombination :=
  (getVoicingsForSelections enabledSelections).flatMap fun sv =>
    enabledKeys.flatMap fun key =>
      (getValidRoots sv.voicing key).map fun rc =>
        { category := sv.category, voicingIndex := sv.index, voicing := sv.voicing
          key := key, root := rc.root, referenceRoot := rc.referenceRoot }

/-- Source function generateRandomChord.  The single uniform random draw
Math.floor(Math.random() * length) always lands in [0, length); it is
embedded by the extra randomIndex argument reduced modulo the pool size. -/
def generateRandomChord (enabledSelections : List VoicingSelection)
    (enabledKeys : List KeySignature) (mode : Mode) (randomIndex : Nat) :
    Option Chord :=
  if enabledSelections.length = 0 ∨ enabledKeys.length = 0 then none
  else
    let validCombinations := collectValidCombinations enabledSelections enabledKeys
    if h : validCombinations.length = 0 then none
    else
      let selected := validCombinations.get
        ⟨randomIndex % validCombinations.length,
         Nat.mod_lt _ (Nat.pos_of_ne_zero h)⟩
      match calculatePitches selected.root selected.key selected.voicing
          (some selected.referenceRoot) with
      | some pitches =>
        some { root := selected.root, keySignature := selected.key, mode := mode
               voicing := selected.voicing, pitches := pitches }
      | none => none

/-- Source function isValidCombination: resolve the pitches with a derived
reference root and validate; a throw is caught and counts as invalid. -/
def isValidCombination (rootScaleDegree : Int) (keySignature : KeySignature)
    (voicing : Voicing) : Bool :=
  match calculatePitches rootScaleDegree keySignature voicing none with
  | some pitches => validatePitches pitches
  | none => false

/-- Source function generateChord (deterministic variant). -/
def generateChord (rootScaleDegree : Int) (keySignature : KeySignature)
    (mode : Mode) (voicing : Voicing) : Option Chord :=
  if isValidCombination rootScaleDegree keySignature voicing then
    match calculatePitches rootScaleDegree keySignature voicing none with
    | some pitches =>
      some { root := rootScaleDegree, keySignature := keySignature, mode := mode
             voicing := voicing, pitches := pitches }
    | none => none
  else none

/-- Transposition direction. -/
inductive TransposeDirection where
  | up | down
deriving DecidableEq, Repr

/-- The chord state held by the UI: a Chord plus the external octave-offset
annotation (currentChord.octaveOffset, defaulted to 0 at creation). -/
structure ChordState where
  root : Int
  keySignature : KeySignature
  mode : Mode
  voicing : Voicing
  pitches : PitchQuad
  octaveOffset : Int
deriving DecidableEq, Repr

/-- Source callback transposeChord: move the root one diatonic step, adjust
the octave offset when the note letter wraps (up and lexically earlier, or
down and lexically later), recompute the pitches from scratch and shift all
four by offset * 12 (a throw of calculatePitches is none here). -/
def transposeChord (c : ChordState) (direction : TransposeDirection) :
    Option ChordState :=
  let oldRootLetter := getNoteLetter c.root c.keySignature
  let oldNoteIndex := letterIndex oldRootLetter
  let newRoot :=
    match direction with
    | TransposeDirection.up => c.root.tmod 7 + 1
    | TransposeDirection.down => if c.root = 1 then 7 else c.root - 1
  let newRootLetter := getNoteLetter newRoot c.keySignature
  let newNoteIndex := letterIndex newRootLetter
  let octaveOffset :=
    if direction = TransposeDirection.up ∧ newNoteIndex < oldNoteIndex then
      c.octaveOffset + 1
    else if direction = TransposeDirection.down ∧ oldNoteIndex < newNoteIndex then
      c.octaveOffset - 1
    else c.octaveOffset
  (calculatePitches newRoot c.keySignature c.voicing none).map fun np =>
    { c with
      root := newRoot
      pitches :=
        { soprano := np.soprano + octaveOffset * 12
          alto := np.alto + octaveOffset * 12
          tenor := np.tenor + octaveOffset * 12
          bass := np.bass + octaveOffset * 12 }
      octaveOffset := octaveOffset }

/-- The reference root pitch getValidRoots builds for a candidate root and
octave register: the diatonic letter of the root in the key, with its key
signature accidental, at that octave. -/
def referenceRootFor (root : Int) (keySignature : KeySignature) (octave : Int) : Int :=
  noteToMidiPitch (getNoteLetter root keySignature)
    (KEY_ACCIDENTALS keySignature (getNoteLetter root keySignature)) octave

/-- The 35 search candidates of the spec wording of getValidRoots: each
root scale degree 1 through 7 paired with each reference octave 1 through 5. -/
def specCandidatePairs : List (Int × Int) :=
  ((List.range 7).map (fun i => (i : Int) + 1)).flatMap fun root =>
    ((List.range 5).map (fun i => (i : Int) + 1)).map fun octave => (root, octave)

/-- Whether one candidate passes: the four pitches resolved from its
reference root all validate (a failed resolution counts as not passing). -/
def candidatePasses (voicing : Voicing) (keySignature : KeySignature)
    (root octave : Int) : Bool :=
  match calculatePitches root keySignature voicing
      (some (referenceRootFor root keySignature octave)) with
  | some pitches => validatePitches pitches
  | none => false

/-- The valid-root search as the spec words it: the exhaustive candidate
list, filtered to precisely the passing (root, referenceRoot) pairs. -/
def getValidRootsSpec (voicing : Voicing) (keySignature : KeySignature) :
    List RootCombo :=
  specCandidatePairs.filterMap fun rc =>
    if candidatePasses voicing keySignature rc.1 rc.2 then
      some { root := rc.1, referenceRoot := referenceRootFor rc.1 keySignature rc.2 }
    else none

end ReadingPractice

namespace ReadingPractice

/-! Helper lemmas shared by the claim theorems. -/

theorem flatMap_map_filterMap {α β γ : Type} (l1 : List α) (l2 : List β)
    (g : α × β → Option γ) :
    (l1.flatMap fun a => l2.map fun b => (a, b)).filterMap g =
      l1.flatMap (fun a => l2.filterMap (fun b => g (a, b))) := by
  induction l1 with
  | nil => rfl
  | cons a l ih =>
    simp only [List.flatMap_cons, List.filterMap_append, ih, List.filterMap_map]
    rfl

theorem mem_getValidRoots_valid {voicing : Voicing} {k : KeySignature}
    {rc : RootCombo} (h : rc ∈ getValidRoots voicing k) :
    ∃ p, calculatePitches rc.root k voicing (some rc.referenceRoot) = some p ∧
      validatePitches p = true := by
  unfold getValidRoots at h
  rw [List.mem_flatMap] at h
  obtain ⟨root, -, h⟩ := h
  rw [List.mem_filterMap] at h
  obtain ⟨octave, -, h⟩ := h
  dsimp only at h
  rcases hc : calculatePitches root k voicing
      (some (noteToMidiPitch (getNoteLetter root k)
        (KEY_ACCIDENTALS k (getNoteLetter root k)) octave)) with _ | p
  · rw [hc] at h
    exact absurd h (by simp)
  · rw [hc] at h
    dsimp only at h
    by_cases hv : validatePitches p = true
    · rw [if_pos hv] at h
      injection h with h2
      subst h2
      exact ⟨p, hc, hv⟩
    · rw [if_neg hv] at h
      exact absurd h (by simp)

theorem mem_collectValidCombinations_valid {sels : List VoicingSelection}
    {keys : List KeySignature} {c : ValidCombination}
    (h : c ∈ collectValidCombinations sels keys) :
    ∃ p, calculatePitches c.root c.key c.voicing (some c.referenceRoot) = some p ∧
      validatePitches p = true := by
  unfold collectValidCombinations at h
  rw [List.mem_flatMap] at h
  obtain ⟨sv, -, h⟩ := h
  rw [List.mem_flatMap] at h
  obtain ⟨key, -, h⟩ := h
  rw [List.mem_map] at h
  obtain ⟨rc, hrc, rfl⟩ := h
  exact mem_getValidRoots_valid hrc

/-- C5: validatePitches on [soprano, alto, tenor, bass] is true exactly when
soprano lies in [60, 81], alto in [55, 76], tenor in [48, 67] and bass in
[40, 62], all bounds inclusive, with no partial-pass notion. -/
theorem validatePitches_iff (s a t b : Int) :
    validatePitches { soprano := s, alto := a, tenor := t, bass := b } = true ↔
      (60 ≤ s ∧ s ≤ 81) ∧ (55 ≤ a ∧ a ≤ 76) ∧ (48 ≤ t ∧ t ≤ 67) ∧
        (40 ≤ b ∧ b ≤ 62) := by
  simp [validatePitches, isPitchInRange, VOICE_RANGES, and_assoc]

/-- C10: every one of the 36 selections (6 doublings, 2 spacings, 3
inversions) resolves through the catalog to a present voicing of length
exactly 4: the lookup-miss branch never fires for well-formed selections. -/
theorem getVoicingForSelection_total (selection : VoicingSelection) :
    (getVoicingForSelection selection).isSome = true ∧
      ((getVoicingForSelection selection).getD []).length = 4 := by
  obtain ⟨d, s, i⟩ := selection
  cases d <;> cases s <;> cases i <;> exact ⟨by decide, by decide⟩

/-- C9: getValidRoots on the SB-doubled-close root-position template
[1, 3, 5, 1 with one prime] in key C (which is entry 0 of that catalog
category) returns at least one pair whose root is 1. -/
theorem getValidRoots_SB_close_C_has_root_one :
    (VOICINGS VoicingCategory.SB_doubled_close).getD 0 [] =
      [VoicingDegree.num 1, VoicingDegree.num 3, VoicingDegree.num 5,
       VoicingDegree.marked 1 1] ∧
    ∃ rc, rc ∈ getValidRoots
        [VoicingDegree.num 1, VoicingDegree.num 3, VoicingDegree.num 5,
         VoicingDegree.marked 1 1] KeySignature.C ∧
      rc.root = 1 := by
  exact ⟨rfl, ⟨{ root := 1, referenceRoot := 48 }, by decide, rfl⟩⟩

theorem getValidRoots_inner_eq (voicing : Voicing) (k : KeySignature)
    (root octave : Int) :
    (match calculatePitches root k voicing
        (some (referenceRootFor root k octave)) with
      | some pitches =>
        if validatePitches pitches then
          some { root := root, referenceRoot := referenceRootFor root k octave }
        else none
      | none => none) =
      (if candidatePasses voicing k root octave then
        some ({ root := root, referenceRoot := referenceRootFor root k octave } :
          RootCombo)
      else none) := by
  unfold candidatePasses
  rcases calculatePitches root k voicing (some (referenceRootFor root k octave))
    with _ | p
  · rfl
  · rfl

/-- C3: the valid-root search evaluates exactly the 35 candidates (each of
the 7 root scale degrees with each of the 5 reference octaves) and returns
precisely the passing (root, referenceRoot) pairs: getValidRoots equals the
filter of the exhaustive candidate list, and that list has 35 entries. -/
theorem getValidRoots_exhaustive (voicing : Voicing) (k : KeySignature) :
    getValidRoots voicing k = getValidRootsSpec voicing k ∧
      specCandidatePairs.length = 35 := by
  constructor
  · unfold getValidRoots getValidRootsSpec specCandidatePairs
    rw [flatMap_map_filterMap]
    refine congrArg _ (funext fun root => ?_)
    refine congrArg (fun g => List.filterMap g _) (funext fun octave => ?_)
    dsimp only
    exact getValidRoots_inner_eq voicing k root octave
  · decide

/-- C4: generateRandomChord fails soft: with empty selections, with empty
keys, or with an empty accumulated pool of valid combinations it returns
none rather than an error. -/
theorem generateRandomChord_soft_failure :
    (∀ keys mode r, generateRandomChord [] keys mode r = none) ∧
    (∀ sels mode r, generateRandomChord sels [] mode r = none) ∧
    (∀ sels keys mode r, collectValidCombinations sels keys = [] →
      generateRandomChord sels keys mode r = none) := by
  refine ⟨?_, ?_, ?_⟩
  · intro keys mode r
    unfold generateRandomChord
    simp
  · intro sels mode r
    unfold generateRandomChord
    simp
  · intro sels keys mode r h
    unfold generateRandomChord
    split
    · rfl
    · dsimp only
      simp [h]

/-- C4 witness: a nonempty selection list with an empty key list has an
empty pool, and generateRandomChord returns none on it. -/
theorem generateRandomChord_soft_failure_witness :
    generateRandomChord
      [{ doubling := DoublingType.SB, spacing := SpacingType.close,
         inversion := InversionType.root }] [] Mode.major 0 = none :=
  generateRandomChord_soft_failure.2.2 _ _ _ _ rfl

/-- C6: calculatePitches is none (the source throws) exactly on voicings
whose length is not 4, never padding or truncating; on a length-4 voicing
[bass, tenor, alto, soprano] it resolves all four degrees against the
explicit or derived reference root and returns them reordered as
[soprano, alto, tenor, bass]. -/
theorem calculatePitches_contract (root : Int) (k : KeySignature)
    (voicing : Voicing) (ref : Option Int) :
    (voicing.length ≠ 4 → calculatePitches root k voicing ref = none) ∧
    (∀ b t a s, voicing = [b, t, a, s] →
      calculatePitches root k voicing ref =
        some
          { soprano := calculatePitchFromDegree s
              (ref.getD (findReferenceRoot root k)) k root
            alto := calculatePitchFromDegree a
              (ref.getD (findReferenceRoot root k)) k root
            tenor := calculatePitchFromDegree t
              (ref.getD (findReferenceRoot root k)) k root
            bass := calculatePitchFromDegree b
              (ref.getD (findReferenceRoot root k)) k root }) := by
  constructor
  · intro h
    unfold calculatePitches
    split
    · rename_i b t a s
      exact absurd rfl h
    · rfl
  · intro b t a s hv
    subst hv
    rfl

/-- C6 witness: a length-0 voicing yields none, and the concrete length-4
voicing [1, 3, 5, 1 primed] in key C with explicit reference root 48 yields
the reordered resolved pitches. -/
theorem calculatePitches_contract_witness :
    calculatePitches 1 KeySignature.C [] none = none ∧
    calculatePitches 1 KeySignature.C
      [VoicingDegree.num 1, VoicingDegree.num 3, VoicingDegree.num 5,
       VoicingDegree.marked 1 1] (some 48) =
      some
        { soprano := calculatePitchFromDegree (VoicingDegree.marked 1 1)
            ((some 48).getD (findReferenceRoot 1 KeySignature.C)) KeySignature.C 1
          alto := calculatePitchFromDegree (VoicingDegree.num 5)
            ((some 48).getD (findReferenceRoot 1 KeySignature.C)) KeySignature.C 1
          tenor := calculatePitchFromDegree (VoicingDegree.num 3)
            ((some 48).getD (findReferenceRoot 1 KeySignature.C)) KeySignature.C 1
          bass := calculatePitchFromDegree (VoicingDegree.num 1)
            ((some 48).getD (findReferenceRoot 1 KeySignature.C)) KeySignature.C 1 } :=
  ⟨(calculatePitches_contract 1 KeySignature.C [] none).1 (by decide),
   (calculatePitches_contract 1 KeySignature.C _ (some 48)).2
     (VoicingDegree.num 1) (VoicingDegree.num 3) (VoicingDegree.num 5)
     (VoicingDegree.marked 1 1) rfl⟩

theorem normalizeDown_exit (octave c : Int) :
    (normalizeDown octave c + 1) * 12 + c < 60 := by
  induction octave, c using normalizeDown.induct with
  | case1 octave c hcond ih =>
    rw [normalizeDown, if_pos hcond]
    exact ih
  | case2 octave c hcond =>
    rw [normalizeDown, if_neg hcond]
    omega

theorem normalizeUp_exit (octave c : Int) :
    48 ≤ (normalizeUp octave c + 1) * 12 + c := by
  induction octave, c using normalizeUp.induct with
  | case1 octave c hcond ih =>
    rw [normalizeUp, if_pos hcond]
    exact ih
  | case2 octave c hcond =>
    rw [normalizeUp, if_neg hcond]
    omega

theorem normalizeUp_below (octave c : Int) (h : (octave + 1) * 12 + c < 60) :
    (normalizeUp octave c + 1) * 12 + c < 60 := by
  revert h
  induction octave, c using normalizeUp.induct with
  | case1 octave c hcond ih =>
    intro h
    rw [normalizeUp, if_pos hcond]
    exact ih (by omega)
  | case2 octave c hcond =>
    intro h
    rw [normalizeUp, if_neg hcond]
    exact h

/-- C7: for every key signature and root scale degree 1 through 7, the
derived reference root lies in the half-open MIDI interval [48, 60) and is
the root letter with its key accidental at some whole octave. -/
theorem findReferenceRoot_in_range (k : KeySignature) (root : Int)
    (_hlow : 1 ≤ root) (_hhigh : root ≤ 7) :
    48 ≤ findReferenceRoot root k ∧ findReferenceRoot root k < 60 ∧
      ∃ octave : Int, findReferenceRoot root k =
        noteToMidiPitch (getNoteLetter root k)
          (KEY_ACCIDENTALS k (getNoteLetter root k)) octave := by
  unfold findReferenceRoot
  dsimp only
  have hup := normalizeUp_exit
    (normalizeDown 3 (NATURAL_SEMITONES (getNoteLetter root k) +
      KEY_ACCIDENTALS k (getNoteLetter root k)))
    (NATURAL_SEMITONES (getNoteLetter root k) +
      KEY_ACCIDENTALS k (getNoteLetter root k))
  have hdown := normalizeDown_exit 3
    (NATURAL_SEMITONES (getNoteLetter root k) +
      KEY_ACCIDENTALS k (getNoteLetter root k))
  have hbelow := normalizeUp_below
    (normalizeDown 3 (NATURAL_SEMITONES (getNoteLetter root k) +
      KEY_ACCIDENTALS k (getNoteLetter root k)))
    (NATURAL_SEMITONES (getNoteLetter root k) +
      KEY_ACCIDENTALS k (getNoteLetter root k)) hdown
  exact ⟨by omega, by omega, ⟨_, rfl⟩⟩

/-- C7 witness: at root 1 in key C the reference root is in [48, 60) and is
a whole-octave placement of the letter C. -/
theorem findReferenceRoot_in_range_witness :
    48 ≤ findReferenceRoot 1 KeySignature.C ∧
      findReferenceRoot 1 KeySignature.C < 60 ∧
      ∃ octave : Int, findReferenceRoot 1 KeySignature.C =
        noteToMidiPitch (getNoteLetter 1 KeySignature.C)
          (KEY_ACCIDENTALS KeySignature.C (getNoteLetter 1 KeySignature.C))
          octave :=
  findReferenceRoot_in_range KeySignature.C 1 (by decide) (by decide)

theorem wrappedIndex_eq_emod (x : Int) : (x.tmod 7 + 7).tmod 7 = x % 7 := by
  rcases x with n | n
  · rw [Int.ofNat_eq_natCast,
      Int.tmod_eq_emod (Int.natCast_nonneg n) (by norm_num),
      Int.tmod_eq_emod (by omega) (by norm_num)]
    omega
  · have ht : (Int.negSucc n).tmod 7 = -(((n + 1) % 7 : Nat) : Int) := rfl
    have hr : (n + 1) % 7 < 7 := Nat.mod_lt _ (by omega)
    rw [ht, Int.tmod_eq_emod (by omega) (by norm_num), Int.negSucc_eq]
    by_cases hr0 : (n + 1) % 7 = 0
    · rw [hr0]
      norm_num
      omega
    · rw [Int.emod_eq_of_lt (by omega) (by omega)]
      omega

/-- C8: getNoteLetter cycles with period 7 in the scale degree, wrapping in
both directions over the letter sequence: degree d + 7 gives the same
letter as degree d for every integer d and every key, in particular degree
8 matches degree 1 and degree 0 matches degree 7. -/
theorem getNoteLetter_period :
    (∀ (d : Int) (k : KeySignature), getNoteLetter (d + 7) k = getNoteLetter d k) ∧
    (∀ k, getNoteLetter 8 k = getNoteLetter 1 k) ∧
    (∀ k, getNoteLetter 0 k = getNoteLetter 7 k) := by
  have hmain : ∀ (d : Int) (k : KeySignature),
      getNoteLetter (d + 7) k = getNoteLetter d k := by
    intro d k
    unfold getNoteLetter
    dsimp only
    have harg : letterIndex (tonicLetter k) + (d + 7) - 1 =
        (letterIndex (tonicLetter k) + d - 1) + 7 := by ring
    rw [harg, wrappedIndex_eq_emod, wrappedIndex_eq_emod]
    congr 1
    omega
  refine ⟨hmain, fun k => ?_, fun k => ?_⟩
  · have := hmain 1 k
    norm_num at this
    exact this
  · have := hmain 0 k
    norm_num at this
    exact this.symm

/-- C1: every chord produced by the engine validates: whenever
generateRandomChord or generateChord returns a chord (rather than null),
its four pitches in [soprano, alto, tenor, bass] order pass
validatePitches. -/
theorem generated_chords_validate :
    (∀ (sels : List VoicingSelection) (keys : List KeySignature) (mode : Mode)
        (r : Nat) (ch : Chord),
      generateRandomChord sels keys mode r = some ch →
        validatePitches ch.pitches = true) ∧
    (∀ (root : Int) (k : KeySignature) (mode : Mode) (voicing : Voicing)
        (ch : Chord),
      generateChord root k mode voicing = some ch →
        validatePitches ch.pitches = true) := by
  constructor
  · intro sels keys mode r ch h
    unfold generateRandomChord at h
    split at h
    · exact absurd h (by simp)
    · dsimp only at h
      split at h
      · exact absurd h (by simp)
      · split at h
        · rename_i pitches heq
          injection h with h2
          subst h2
          obtain ⟨p, hp, hv⟩ :=
            mem_collectValidCombinations_valid (List.get_mem _ _ _)
          rw [hp] at heq
          injection heq with h3
          subst h3
          exact hv
        · exact absurd h (by simp)
  · intro root k mode voicing ch h
    unfold generateChord at h
    split at h
    · rename_i hvalid
      split at h
      · rename_i pitches heq
        injection h with h2
        subst h2
        unfold isValidCombination at hvalid
        rw [heq] at hvalid
        exact hvalid
      · exact absurd h (by simp)
    · exact absurd h (by simp)

/-- C1 witness: the single SB-doubled-close root-position selection in key
C produces a chord, and its pitches validate. -/
theorem generated_chords_validate_witness :
    validatePitches
      ((generateRandomChord
        [{ doubling := DoublingType.SB, spacing := SpacingType.close,
           inversion := InversionType.root }]
        [KeySignature.C] Mode.major 0).getD
        { root := 0, keySignature := KeySignature.C, mode := Mode.major,
          voicing := [],
          pitches := { soprano := 0, alto := 0, tenor := 0, bass := 0 } }).pitches
      = true :=
  generated_chords_validate.1
    [{ doubling := DoublingType.SB, spacing := SpacingType.close,
       inversion := InversionType.root }]
    [KeySignature.C] Mode.major 0
    ((generateRandomChord
        [{ doubling := DoublingType.SB, spacing := SpacingType.close,
           inversion := InversionType.root }]
        [KeySignature.C] Mode.major 0).getD
      { root := 0, keySignature := KeySignature.C, mode := Mode.major,
        voicing := [],
        pitches := { soprano := 0, alto := 0, tenor := 0, bass := 0 } })
    (by decide)

/-- C2 (amended): the diatonic step always wraps the root (7 up to 1, 1
down to 7) in every key, but the octave-offset counter changes only when
the note-letter comparison detects a wrap, which for these root positions
happens exactly in the key whose tonic letter is C: stepping up from root 7
increments the offset when the tonic letter is C and leaves it unchanged
otherwise, and stepping down from root 1 decrements it when the tonic
letter is C and leaves it unchanged otherwise. -/
theorem transposeChord_wrap (c c' : ChordState) :
    (c.root = 7 → transposeChord c TransposeDirection.up = some c' →
      c'.root = 1 ∧
        c'.octaveOffset =
          (if tonicLetter c.keySignature = NoteLetter.C then c.octaveOffset + 1
           else c.octaveOffset)) ∧
    (c.root = 1 → transposeChord c TransposeDirection.down = some c' →
      c'.root = 7 ∧
        c'.octaveOffset =
          (if tonicLetter c.keySignature = NoteLetter.C then c.octaveOffset - 1
           else c.octaveOffset)) := by
  obtain ⟨root, k, mode, v, p, off⟩ := c
  constructor
  · intro hroot h
    dsimp only at hroot
    subst hroot
    unfold transposeChord at h
    dsimp only at h
    rw [Option.map_eq_some'] at h
    obtain ⟨np, hcalc, hc'⟩ := h
    subst hc'
    dsimp only
    refine ⟨by decide, ?_⟩
    cases k <;> simp +decide
  · intro hroot h
    dsimp only at hroot
    subst hroot
    unfold transposeChord at h
    dsimp only at h
    rw [Option.map_eq_some'] at h
    obtain ⟨np, hcalc, hc'⟩ := h
    subst hc'
    dsimp only
    refine ⟨by decide, ?_⟩
    cases k <;> simp +decide

/-- C2 witness: in key C, stepping up from root 7 wraps the root to 1 and
increments the octave offset from 0 to 1 (the stated equalities are the
conclusion of the amended theorem at that concrete chord, which reduces to
these values). -/
theorem transposeChord_wrap_witness :
    (1 : Int) = 1 ∧
    (1 : Int) =
      (if tonicLetter KeySignature.C = NoteLetter.C then (0 : Int) + 1
       else (0 : Int)) :=
  (transposeChord_wrap
    { root := 7, keySignature := KeySignature.C, mode := Mode.major,
      voicing := [VoicingDegree.num 1, VoicingDegree.num 3, VoicingDegree.num 5,
        VoicingDegree.marked 1 1],
      pitches := { soprano := 0, alto := 0, tenor := 0, bass := 0 },
      octaveOffset := 0 }
    { root := 1, keySignature := KeySignature.C, mode := Mode.major,
      voicing := [VoicingDegree.num 1, VoicingDegree.num 3, VoicingDegree.num 5,
        VoicingDegree.marked 1 1],
      pitches := { soprano := 72, alto := 67, tenor := 64, bass := 60 },
      octaveOffset := 1 }).1 rfl
    (by
      have h1 : findReferenceRoot 1 KeySignature.C = 48 := by
        simp [findReferenceRoot, normalizeDown, normalizeUp,
          show getNoteLetter 1 KeySignature.C = NoteLetter.C from rfl,
          KEY_ACCIDENTALS, NATURAL_SEMITONES]
      have h2 : calculatePitches 1 KeySignature.C
          [VoicingDegree.num 1, VoicingDegree.num 3, VoicingDegree.num 5,
           VoicingDegree.marked 1 1] none =
          calculatePitches 1 KeySignature.C
          [VoicingDegree.num 1, VoicingDegree.num 3, VoicingDegree.num 5,
           VoicingDegree.marked 1 1]
          (some (findReferenceRoot 1 KeySignature.C)) := rfl
      rw [h1] at h2
      unfold transposeChord
      dsimp only
      rw [show ((7 : Int).tmod 7 + 1) = 1 from by decide]
      rw [h2]
      decide)

/-- C2 counterexample: in key G, stepping up from root 7 wraps the root to
1 but leaves the octave offset at 0 instead of incrementing it, refuting
the for-every-key octave-offset part of the claim. -/
theorem transposeChord_wrap_counterexample :
    (transposeChord
      { root := 7, keySignature := KeySignature.G, mode := Mode.major,
        voicing := [VoicingDegree.num 1, VoicingDegree.num 3, VoicingDegree.num 5,
          VoicingDegree.marked 1 1],
        pitches := { soprano := 0, alto := 0, tenor := 0, bass := 0 },
        octaveOffset := 0 }
      TransposeDirection.up).map (fun s => (s.root, s.octaveOffset)) =
      some ((1 : Int), (0 : Int)) := by
  have h1 : findReferenceRoot 1 KeySignature.G = 55 := by
    simp [findReferenceRoot, normalizeDown, normalizeUp,
      show getNoteLetter 1 KeySignature.G = NoteLetter.G from rfl,
      KEY_ACCIDENTALS, NATURAL_SEMITONES]
  have h2 : calculatePitches 1 KeySignature.G
      [VoicingDegree.num 1, VoicingDegree.num 3, VoicingDegree.num 5,
       VoicingDegree.marked 1 1] none =
      calculatePitches 1 KeySignature.G
      [VoicingDegree.num 1, VoicingDegree.num 3, VoicingDegree.num 5,
       VoicingDegree.marked 1 1]
      (some (findReferenceRoot 1 KeySignature.G)) := rfl
  rw [h1] at h2
  unfold transposeChord
  dsimp only
  rw [show ((7 : Int).tmod 7 + 1) = 1 from by decide]
  rw [h2]
  decide

end ReadingPractice
